import Mathlib

/-!
Verification of the backup orchestration core of the PterodactylNodeBackup
repository.  The TypeScript sources (`server/backup.ts`, `server/scheduler.ts`,
`server/storage.ts`, `server/db.ts`) are shallowly embedded below: every
external effect (SFTP connect/list/download, workload-state API, archiving,
storage upload, cleanup) is an input of the model, supplied as an `Except`
value describing whether the real call would succeed or throw, and each
function computes the sequence of database writes, emitted events and log
lines exactly as the source code orders them.
-/

set_option linter.unusedVariables false
set_option linter.unnecessarySeqFocus false
set_option maxRecDepth 100000

namespace PNB

/-- Decidable equality for `Except`, needed to evaluate concrete runs. -/
instance {ε α : Type} [DecidableEq ε] [DecidableEq α] : DecidableEq (Except ε α) := fun a b =>
  match a, b with
  | .error e, .error f =>
    if h : e = f then isTrue (by rw [h]) else isFalse (by intro hc; cases hc; exact h rfl)
  | .ok x, .ok y =>
    if h : x = y then isTrue (by rw [h]) else isFalse (by intro hc; cases hc; exact h rfl)
  | .error _, .ok _ => isFalse (by intro hc; cases hc)
  | .ok _, .error _ => isFalse (by intro hc; cases hc)

/-- Run status of a backup record (`backups.status` column; `db.ts`). -/
inductive Status where
  | pending
  | running
  | completed
  | failed
deriving DecidableEq, Repr

/-- The three storage backends (`storage.ts`: `StorageType`). -/
inductive StorageType where
  | localDisk
  | cloud
  | remote
deriving DecidableEq, Repr

/-- Log levels used by `backupLog` / `log` (`logger.ts`). -/
inductive LogLevel where
  | info
  | warn
  | error
  | debug
deriving DecidableEq, Repr

/-- One structured log line `(level, message)` as stored by `backupLogRepo.add`. -/
abbrev LogEntry := LogLevel × String

/-- A row of the `backups` table (`db.ts` schema).  Defaults mirror the SQL
column defaults (`size INTEGER DEFAULT 0`, `status TEXT DEFAULT 'pending'`,
`progress INTEGER DEFAULT 0`, nullable text columns). -/
structure BackupRec where
  id : Nat
  node_id : Nat
  volume_name : String
  filename : String
  size : Nat := 0
  storage_type : StorageType
  storage_path : Option String := none
  status : Status := .pending
  progress : Nat := 0
  error_message : Option String := none
  started_at : Option String := none
  completed_at : Option String := none
  created_at : Nat := 0
deriving DecidableEq, Repr

/-! ## String helpers

The TypeScript code uses `String.prototype.replace`, `path.basename`,
`path.resolve`, `String.prototype.slice` and a UUID regular expression.  They
are modelled on `List Char` so that concrete runs evaluate by `decide`. -/

/-- Split a character list on a separator, keeping empty groups
(the behaviour of `"a//b".split("/")`). -/
def splitOnChar (sep : Char) : List Char → List (List Char)
  | [] => [[]]
  | c :: cs =>
    let rest := splitOnChar sep cs
    if c = sep then [] :: rest
    else
      match rest with
      | [] => [[c]]
      | g :: gs => (c :: g) :: gs

/-- Node's `path.basename` (posix): the last non-empty `/`-separated segment,
or `""` when there is none (`basename("/") = ""`, `basename("") = ""`). -/
def jsBasename (s : String) : String :=
  String.mk (((splitOnChar '/' s.toList).filter (fun g => g ≠ [])).getLastD [])

/-- `msg.slice(0, 200)` of `backup.ts` line 180 (ASCII messages). -/
def jsSlice200 (s : String) : String :=
  String.mk (s.toList.take 200)

/-- `new Date().toISOString().replace(/[:.]/g, '-')` (`backup.ts` line 31). -/
def tsClean (s : String) : String :=
  String.mk (s.toList.map (fun c => if c = ':' ∨ c = '.' then '-' else c))

/-- Hexadecimal digit test, case-insensitive, as in the `[0-9a-f]` classes of
the UUID regex with the `i` flag. -/
def isHexDig (c : Char) : Bool :=
  (('0' ≤ c) && (c ≤ '9')) || (('a' ≤ c) && (c ≤ 'f')) || (('A' ≤ c) && (c ≤ 'F'))

/-- The test `/^[0-9a-f]{8}-[0-9a-f]{4}-[0-9a-f]{4}-[0-9a-f]{4}-[0-9a-f]{12}$/i`
of `backup.ts` line 90: five hyphen-separated hex groups of lengths
8, 4, 4, 4, 12. -/
def isUuidFormat (s : String) : Bool :=
  match splitOnChar '-' s.toList with
  | [a, b, c, d, e] =>
    a.length == 8 && b.length == 4 && c.length == 4 && d.length == 4 && e.length == 12 &&
      (a ++ b ++ c ++ d ++ e).all isHexDig
  | _ => false

/-! ## Local storage path handling (`storage.ts`, `LocalStorage`)

Absolute paths are modelled as lists of path segments; `jsResolve` performs the
normalisation `path.resolve` applies after joining (`.` and empty segments are
dropped, `..` pops one segment). -/

/-- One step of path normalisation as performed by `path.resolve`. -/
def resolveSeg (base : List String) (seg : String) : List String :=
  if seg = "" ∨ seg = "." then base
  else if seg = ".." then base.dropLast
  else base ++ [seg]

/-- `path.resolve(base, p)` for an absolute `base` given as segments. -/
def jsResolve (base : List String) (p : String) : List String :=
  ((splitOnChar '/' p.toList).map String.mk).foldl resolveSeg base

/-- The resolved path stays inside the base directory. -/
def isUnder (base resolved : List String) : Prop :=
  resolved.take base.length = base

instance (base resolved : List String) : Decidable (isUnder base resolved) := by
  unfold isUnder; infer_instance

/-- `LocalStorage.sanitizeFilename`: reduce to `path.basename`. -/
def sanitizeFilename (filename : String) : String :=
  jsBasename filename

/-- Whether `sanitizeFilename` logs the blocked-traversal warning:
`if (!safe || safe !== filename)`. -/
def sanitizeWarned (filename : String) : Bool :=
  let safe := jsBasename filename
  safe == "" || safe != filename

/-! ## `getSize` of the three storage backends (`storage.ts`)

Settings read from the database are `Option String` (`none` models a missing
or empty setting, which is falsy in the TypeScript guards); the underlying
stat/head/connect operations are `Except` inputs. -/

/-- `LocalStorage.getSize`: `existsSync(p) ? statSync(p).size : 0`. -/
def localGetSize (fileExists : Bool) (statSize : Nat) : Except String Nat :=
  Except.ok (if fileExists then statSize else 0)

/-- `S3Storage.getSize`: `getClient()` (which throws when bucket or access key
is missing) and the head request both run inside the `try`, so every failure
is caught and `0` is returned; `ContentLength || 0` maps a missing length
to `0`. -/
def s3GetSize (bucket accessKey : Option String)
    (head : Except String (Option Nat)) : Except String Nat :=
  if bucket.isNone || accessKey.isNone then Except.ok 0
  else
    match head with
    | .error _ => Except.ok 0
    | .ok contentLength => Except.ok (contentLength.getD 0)

/-- `SftpStorage.getSize`: `await this.getClient()` runs *before* the
`try`/`catch`, so a missing host/username (or a failed connect) throws out of
`getSize`; only a failure of `client.stat` is caught and turned into `0`. -/
def sftpGetSize (host username : Option String) (connect : Except String Unit)
    (stat : Except String Nat) : Except String Nat :=
  if host.isNone || username.isNone then
    Except.error "SFTP Configuration missing in database"
  else
    match connect with
    | .error e => Except.error e
    | .ok _ =>
      match stat with
      | .error _ => Except.ok 0
      | .ok n => Except.ok n

example : jsBasename "x/../y.tar.gz" = "y.tar.gz" := by decide
example : jsBasename ".." = ".." := by decide
example : isUuidFormat "0f81e4a6-96cc-4c95-80e0-5b2b2e7f00aa" = true := by decide
example : isUuidFormat "vol1" = false := by decide

/-! ## Deletion and retention (`backup.ts` `deleteBackup`, `scheduler.ts` `applyRetention`)

`deleteBackup` performs a best-effort storage-backend delete followed by
`backupRepo.delete`; `applyRetention` loops over the pruned runs calling
`backupRepo.delete(backup.id)` directly.  Both are modelled as the sequence of
delete operations they issue. -/

/-- A delete operation issued against storage or the database. -/
inductive DeleteOp where
  /-- `storage.get(type).delete(filename)` — removal of the stored artifact. -/
  | storageDel (st : StorageType) (filename : String)
  /-- `backupRepo.delete(id)` — removal of the run's database record
  (with its log rows). -/
  | recordDel (id : Nat)
deriving DecidableEq, Repr

/-- The operations of manual deletion, `deleteBackup` (`backup.ts` 186-199):
a best-effort storage delete of the artifact, then the record delete. -/
def deleteBackupOps (b : BackupRec) : List DeleteOp :=
  [DeleteOp.storageDel b.storage_type b.filename, DeleteOp.recordDel b.id]

/-- Descending creation-time order used by `applyRetention`'s comparator
`new Date(b.created_at) - new Date(a.created_at)`. -/
def createdDesc (a b : BackupRec) : Prop :=
  b.created_at ≤ a.created_at

instance : DecidableRel createdDesc := fun a b => Nat.decLe b.created_at a.created_at

instance : IsTotal BackupRec createdDesc :=
  ⟨fun a b => (Nat.le_total b.created_at a.created_at).elim Or.inl Or.inr⟩

instance : IsTrans BackupRec createdDesc :=
  ⟨fun _ _ _ hab hbc => Nat.le_trans hbc hab⟩

/-- The filter of `applyRetention` (`scheduler.ts` 64-65): the node's runs with
the schedule's storage kind and status `completed`. -/
def completedFor (backups : List BackupRec) (st : StorageType) : List BackupRec :=
  backups.filter (fun b => b.storage_type == st && b.status == Status.completed)

/-- The sort of `applyRetention` (`scheduler.ts` 66): newest first. -/
def retentionSort (l : List BackupRec) : List BackupRec :=
  l.insertionSort createdDesc

/-- The runs `applyRetention` keeps: the first `keep` of the descending sort. -/
def retentionKept (backups : List BackupRec) (st : StorageType) (keep : Nat) : List BackupRec :=
  (retentionSort (completedFor backups st)).take keep

/-- The runs `applyRetention` deletes: `backups.slice(keep)` of the descending
sort, guarded by `if (backups.length > keep)` (`scheduler.ts` 68-69). -/
def retentionVictims (backups : List BackupRec) (st : StorageType) (keep : Nat) : List BackupRec :=
  let bs := retentionSort (completedFor backups st)
  if keep < bs.length then bs.drop keep else []

/-- The loop body of `applyRetention` (`scheduler.ts` 70-73): for each pruned
run it calls `backupRepo.delete(backup.id)` and nothing else. -/
def retentionDeleteLoop : List BackupRec → List DeleteOp
  | [] => []
  | b :: rest => DeleteOp.recordDel b.id :: retentionDeleteLoop rest

/-- All delete operations issued by one `applyRetention` invocation. -/
def applyRetentionOps (backups : List BackupRec) (st : StorageType) (keep : Nat) : List DeleteOp :=
  retentionDeleteLoop (retentionVictims backups st keep)

/-! ## The backup pipeline (`backup.ts` `createBackup`)

`createBackup` is embedded as a function of a `PipelineEnv` describing the
outcome every external call would have, returning the ordered list of database
record states it writes, the external events it performs and the log lines it
emits.  Per-volume externals live in `VolEnv`. -/

/-- Externally visible calls made by one run. -/
inductive Event where
  /-- the SFTP session to the node was established (`connectToNode` succeeded) -/
  | sftpConnect
  /-- `client.end()` — the SFTP session to the node was closed -/
  | sftpEnd
  /-- `getServerState(vol)` was called (`pterodactyl.ts`) -/
  | getState (vol : String)
  /-- `setServerState(vol, signal)` was called -/
  | setState (vol : String) (signal : String)
  /-- `client.downloadDir` was called for a volume -/
  | download (vol : String)
  /-- the `Backup Started` webhook -/
  | notifyStart
  /-- the `Backup Completed` webhook -/
  | notifySuccess
  /-- the `Backup Failed` webhook; the `Error` field is `msg.slice(0, 200)` -/
  | notifyFailure (errField : String)
deriving DecidableEq, Repr

/-- Is the event a workload-state call (`getServerState`/`setServerState`)? -/
def isWorkloadCall : Event → Bool
  | .getState _ => true
  | .setState _ _ => true
  | _ => false

/-- Outcomes of the external calls made while processing one volume.
`getState`/`polls` return `Except String (Option String)`: an error models the
call throwing, `none` models the `null` that `getServerState` returns when the
panel settings are incomplete or the server is unknown. -/
structure VolEnv where
  name : String
  getState : Except String (Option String)
  stop : Except String Unit
  polls : List (Except String (Option String))
  download : Except String Unit
  start : Except String Unit
deriving DecidableEq, Repr

/-- The wait-for-offline loop (`backup.ts` 101-105): up to 12 polls of
`getServerState`; a poll throwing aborts the enclosing `try` (caught at line
107) and an `'offline'` result breaks the loop. -/
def pollEvents (name : String) : Nat → List (Except String (Option String)) → List Event
  | 0, _ => []
  | _ + 1, [] => []
  | fuel + 1, r :: rest =>
    Event.getState name ::
      match r with
      | .error _ => []
      | .ok none => pollEvents name fuel rest
      | .ok (some s) => if s == "offline" then [] else pollEvents name fuel rest

/-- The Safe Backup section (`backup.ts` 88-110): only for UUID-shaped volume
names; returns the events, the log lines and the `wasRunning` flag.  The guard
`state && state !== 'offline'` treats `null`, the empty string and
`'offline'` as not-running; every throw inside the section is swallowed by the
`catch` at line 107, after `wasRunning` may already have been set. -/
def safeStop (v : VolEnv) : List Event × List LogEntry × Bool :=
  if isUuidFormat v.name then
    match v.getState with
    | .error _ => ([Event.getState v.name], [], false)
    | .ok none => ([Event.getState v.name], [], false)
    | .ok (some s) =>
      if s = "" ∨ s = "offline" then ([Event.getState v.name], [], false)
      else
        let stopLog : LogEntry := (.info, "[Safe Backup] Stopping server " ++ v.name ++ "...")
        match v.stop with
        | .error _ => ([Event.getState v.name, Event.setState v.name "stop"], [stopLog], true)
        | .ok _ =>
          (Event.getState v.name :: Event.setState v.name "stop" ::
              pollEvents v.name 12 v.polls,
            [stopLog], true)
  else ([], [], false)

/-- One iteration of the volume loop (`backup.ts` 83-131, progress write
aside): safe-stop, download (its failure only logged as a warning, line 116),
then — whenever a stop was performed — the safe-start attempt (lines 119-127,
its failure also only logged). -/
def processVolume (i n : Nat) (v : VolEnv) : List Event × List LogEntry :=
  let st := safeStop v
  let dlLog : LogEntry :=
    (.info, "Downloading volume: " ++ v.name ++ " (" ++ toString (i + 1) ++ "/" ++ toString n ++ ")")
  let dlWarn : List LogEntry :=
    match v.download with
    | .ok _ => []
    | .error e => [(.warn, "Failed to download " ++ v.name ++ ": " ++ e)]
  let rest : List Event × List LogEntry :=
    if st.2.2 then
      ([Event.setState v.name "start"],
        (LogLevel.info, "[Safe Backup] Restoring server " ++ v.name ++ "...") ::
          (match v.start with
          | .ok _ => []
          | .error _ => [(.warn, "Failed to restart server")]))
    else ([], [])
  (st.1 ++ Event.download v.name :: rest.1,
    st.2.1 ++ dlLog :: dlWarn ++ rest.2)

/-- The whole volume loop, accumulating events and logs (`i` is the index of
the first remaining volume, `n` the total count). -/
def processAll (n i : Nat) : List VolEnv → List Event × List LogEntry
  | [] => ([], [])
  | v :: rest =>
    let h := processVolume i n v
    let t := processAll n (i + 1) rest
    (h.1 ++ t.1, h.2 ++ t.2)

/-- Outcomes of the run-level external calls of `createBackup`. -/
structure PipelineEnv where
  /-- `nodeRepo.getById` found the node -/
  nodeFound : Bool
  nodeName : String
  nodeId : Nat
  /-- the record id (`options.backupId`, or the id `backupRepo.create` returns) -/
  backupId : Nat
  /-- `options.backupId` was given: the `POST /api/backups` path, which first
  created a `pending` record -/
  viaApi : Bool
  /-- `options.volumeName || 'all-volumes'` -/
  volumeSel : String
  storageType : StorageType
  /-- `new Date().toISOString()` -/
  timestamp : String
  created_at : Nat
  connect : Except String Unit
  /-- outcome of `client.list(volumesPath)` in the all-volumes case -/
  listing : Except String Unit
  /-- the listed volumes (directories surviving the dot-filter of line 71) -/
  vols : List VolEnv
  /-- the single volume's externals when a volume name was given -/
  singleVol : VolEnv
  /-- `createArchive` + `statSync`: error, or the archive's byte size -/
  archive : Except String Nat
  /-- `backend.upload`: error, or the returned storage path -/
  upload : Except String String
  /-- `rmSync` + `unlinkSync` of the scratch dir and temp archive -/
  cleanup : Except String Unit
deriving Repr

/-- Volume enumeration (`backup.ts` 69-75): list-and-filter for the
`all-volumes` sentinel (the listing may throw), otherwise the single named
volume. -/
def enumerate (env : PipelineEnv) : Except String (List VolEnv × List LogEntry) :=
  if env.volumeSel == "all-volumes" then
    match env.listing with
    | .error e => .error e
    | .ok _ =>
      .ok (env.vols, [(.info, "Found " ++ toString env.vols.length ++ " volumes")])
  else .ok ([{ env.singleVol with name := env.volumeSel }], [])

/-- The volumes a run processes (after successful enumeration). -/
def enumeratedVols (env : PipelineEnv) : List VolEnv :=
  match enumerate env with
  | .ok (vs, _) => vs
  | .error _ => []

/-- The per-volume progress write (`backup.ts` 129):
`15 + Math.floor(((i + 1) / volumes.length) * 60)` (integer model). -/
def volProgress (n i : Nat) : Nat :=
  15 + ((i + 1) * 60) / n

/-- Result of the `try` block of `createBackup` (lines 59-174): the progress
values written, the events and logs, and either the thrown message or the
`(storagePath, fileSize)` pair of a successful run. -/
structure TryResult where
  progresses : List Nat
  events : List Event
  logs : List LogEntry
  result : Except String (String × Nat)

/-- The `try` block of `createBackup`: connect (progress 10), enumerate
(progress 15), the volume loop, `client.end()` (progress 75), archive
(progress 85), upload (progress 95), cleanup, in source order.  Note that
`client.end()` at line 132 runs only on the straight-line path: a throw
between the successful connect and line 132 reaches the `catch` with the
session still open, and the cleanup of lines 150-152 is inside the `try`, so
its errors also reach the `catch`. -/
def tryOutcome (env : PipelineEnv) : TryResult :=
  let connLog : LogEntry := (.info, "Connecting to " ++ env.nodeName)
  match env.connect with
  | .error e => ⟨[], [], [connLog], .error e⟩
  | .ok _ =>
    match enumerate env with
    | .error e => ⟨[10], [.sftpConnect], [connLog], .error e⟩
    | .ok (vols, enumLogs) =>
      let n := vols.length
      let body := processAll n 0 vols
      let pre : List Nat := 10 :: 15 :: (List.range n).map (volProgress n)
      let evs : List Event := Event.sftpConnect :: body.1 ++ [Event.sftpEnd]
      let lgs : List LogEntry :=
        connLog :: enumLogs ++ body.2 ++
          [(.info, "Download complete"), (.info, "Compressing backup...")]
      match env.archive with
      | .error e => ⟨pre ++ [75], evs, lgs, .error e⟩
      | .ok size =>
        let lgs2 := lgs ++
          [(.info, "Archive created"),
            (.info, "Uploading to storage...")]
        match env.upload with
        | .error e => ⟨pre ++ [75, 85], evs, lgs2, .error e⟩
        | .ok spath =>
          match env.cleanup with
          | .error e => ⟨pre ++ [75, 85, 95], evs, lgs2, .error e⟩
          | .ok _ => ⟨pre ++ [75, 85, 95], evs, lgs2, .ok (spath, size)⟩

/-- The artifact filename (`backup.ts` 31-32):
`{node.name}-{volumeName}-{timestamp with : and . replaced}.tar.gz`. -/
def genFilename (env : PipelineEnv) : String :=
  env.nodeName ++ "-" ++ env.volumeSel ++ "-" ++ tsClean env.timestamp ++ ".tar.gz"

/-- The `pending` record `POST /api/backups` creates before calling
`createBackup` (`api.ts` 157-164). -/
def apiPendingRec (env : PipelineEnv) : BackupRec :=
  { id := env.backupId, node_id := env.nodeId, volume_name := env.volumeSel,
    filename := "pending", storage_type := env.storageType, status := .pending,
    created_at := env.created_at }

/-- The record after entering `running` (`backup.ts` 36-50): an update of the
pending record in the `backupId` branch, or the freshly created row. -/
def runningRec (env : PipelineEnv) (fname : String) : BackupRec :=
  if env.viaApi then
    { apiPendingRec env with
        filename := fname, status := .running, started_at := some env.timestamp }
  else
    { id := env.backupId, node_id := env.nodeId, volume_name := env.volumeSel,
      filename := fname, storage_type := env.storageType, status := .running,
      started_at := some env.timestamp, created_at := env.created_at }

/-- What one `createBackup` invocation did: the successive database states of
the run's record, the external events, the log lines, and the re-raised error
message if the run threw. -/
structure RunOutcome where
  states : List BackupRec
  events : List Event
  logs : List LogEntry
  threw : Option String

/-- The whole of `createBackup` (`backup.ts` 25-184).  A missing node throws
before any record write (line 28 is outside the `try`).  Otherwise the record
enters `running`, progress 5 is written, the `try` block runs, and the run
finishes either with the single completing update of lines 155-161 (storage
path, size, `completed`, progress 100) or with `backupRepo.fail` (status
`failed`, the *untruncated* message, progress 0) followed by the webhook whose
`Error` field is `msg.slice(0, 200)` and the re-raise of line 182. -/
def createBackupModel (env : PipelineEnv) : RunOutcome :=
  if env.nodeFound = false then
    { states := if env.viaApi then [apiPendingRec env] else [],
      events := [], logs := [], threw := some "Node not found" }
  else
    let fname := genFilename env
    let rRun := runningRec env fname
    let entry := (if env.viaApi then [apiPendingRec env] else []) ++ [rRun]
    let startLogs : List LogEntry := [(.info, "Starting backup: " ++ fname)]
    let t := tryOutcome env
    let mid := (5 :: t.progresses).map (fun p => { rRun with progress := p })
    match t.result with
    | .ok (spath, size) =>
      let done := { rRun with
        storage_path := some spath, size := size, status := .completed,
        progress := 100, completed_at := some env.timestamp }
      { states := entry ++ mid ++ [done],
        events := Event.notifyStart :: t.events ++ [Event.notifySuccess],
        logs := startLogs ++ t.logs ++ [(.info, "Backup completed")],
        threw := none }
    | .error e =>
      let failed := { rRun with status := .failed, error_message := some e, progress := 0 }
      { states := entry ++ mid ++ [failed],
        events := Event.notifyStart :: t.events ++ [Event.notifyFailure (jsSlice200 e)],
        logs := startLogs ++ t.logs ++ [(.error, "Backup failed: " ++ e)],
        threw := some e }

/-- The last database state of the run's record. -/
def finalRec (o : RunOutcome) : Option BackupRec :=
  o.states.getLast?

/-- The record invariant of the specification:
`storage_path` set ↔ `completed` ↔ progress 100. -/
def recInvariant (r : BackupRec) : Prop :=
  (r.storage_path.isSome = true ↔ r.status = Status.completed) ∧
    (r.status = Status.completed ↔ r.progress = 100)

instance (r : BackupRec) : Decidable (recInvariant r) := by
  unfold recInvariant; infer_instance

/-- The listing step does not throw (trivially so when a volume name was
given, since then `client.list` is not called). -/
def listingOk (env : PipelineEnv) : Prop :=
  env.volumeSel = "all-volumes" → env.listing = Except.ok ()

/-! ## Concrete instances used to settle the claims -/

/-- A volume whose externals all succeed. -/
def exVol : VolEnv :=
  { name := "vol1", getState := .ok none, stop := .ok (), polls := [],
    download := .ok (), start := .ok () }

/-- A single-volume run against node `alpha` in which every external call
succeeds. -/
def envBase : PipelineEnv :=
  { nodeFound := true, nodeName := "alpha", nodeId := 1, backupId := 7,
    viaApi := false, volumeSel := "vol1", storageType := .localDisk,
    timestamp := "2026-01-01T00:00:00.000Z", created_at := 0,
    connect := .ok (), listing := .ok (), vols := [], singleVol := exVol,
    archive := .ok 10, upload := .ok "/data/backups/f.tar.gz", cleanup := .ok () }

/-- An older and a newer completed local-storage run of the same node. -/
def exOld : BackupRec :=
  { id := 1, node_id := 1, volume_name := "v", filename := "old.tar.gz",
    storage_type := .localDisk, storage_path := some "/data/backups/old.tar.gz",
    status := .completed, progress := 100, created_at := 100 }

/-- See `exOld`. -/
def exNew : BackupRec :=
  { id := 2, node_id := 1, volume_name := "v", filename := "new.tar.gz",
    storage_type := .localDisk, storage_path := some "/data/backups/new.tar.gz",
    status := .completed, progress := 100, created_at := 200 }

/-- A 201-character error message. -/
def longMsg : String := String.mk (List.replicate 201 'x')

/-- `envBase`, but the scratch-directory/temp-file cleanup throws. -/
def envC2 : PipelineEnv := { envBase with cleanup := Except.error "EACCES" }

/-- `envBase`, but the SFTP connect throws with a 201-character message. -/
def envC3 : PipelineEnv := { envBase with connect := Except.error longMsg }

/-- An all-volumes run in which the connect succeeds and the directory
listing throws. -/
def envC4 : PipelineEnv :=
  { envBase with volumeSel := "all-volumes", listing := Except.error "boom" }

/-- counterexample to C1: with two completed runs and retention count 1, the
pruned (older) run is deleted by `backupRepo.delete` alone — the storage
delete that manual `deleteBackup` would issue never appears in the trace. -/
theorem c1_retention_skips_storage_delete_cex :
    ¬ (∀ b ∈ retentionVictims [exNew, exOld] StorageType.localDisk 1,
        ∀ op ∈ deleteBackupOps b,
          op ∈ applyRetentionOps [exNew, exOld] StorageType.localDisk 1) := by
  decide

/-- The guarding `if` of `applyRetention` is equivalent to a plain `drop`:
when the completed list is no longer than `keep`, `slice(keep)` is empty. -/
theorem retentionVictims_eq_drop (backups : List BackupRec) (st : StorageType) (keep : Nat) :
    retentionVictims backups st keep = (retentionSort (completedFor backups st)).drop keep := by
  unfold retentionVictims
  by_cases h : keep < (retentionSort (completedFor backups st)).length
  · simp only [if_pos h]
  · simp only [if_neg h]
    exact (List.drop_eq_nil_of_le (Nat.le_of_not_lt h)).symm

/-- The retention loop issues exactly one record delete per pruned run and
nothing else. -/
theorem retentionDeleteLoop_spec (l : List BackupRec) :
    (∀ b ∈ l, DeleteOp.recordDel b.id ∈ retentionDeleteLoop l) ∧
    (∀ op ∈ retentionDeleteLoop l, ∃ b ∈ l, op = DeleteOp.recordDel b.id) := by
  induction l with
  | nil => simp [retentionDeleteLoop]
  | cons b rest ih =>
    refine ⟨?_, ?_⟩
    · intro c hc
      rcases List.mem_cons.mp hc with h | h
      · subst h; exact List.mem_cons_self _ _
      · exact List.mem_cons_of_mem _ (ih.1 c h)
    · intro op hop
      rcases List.mem_cons.mp hop with h | h
      · exact ⟨b, List.mem_cons_self _ _, h⟩
      · obtain ⟨c, hc, hop⟩ := ih.2 op h
        exact ⟨c, List.mem_cons_of_mem _ hc, hop⟩

/-- C1 (amended): each pruned run is deleted from the database only — the
retention trace consists exactly of the `backupRepo.delete` record deletions
of the pruned runs; no storage-backend delete is ever issued. -/
theorem c1_retention_record_delete_only (backups : List BackupRec) (st : StorageType) (keep : Nat) :
    (∀ b ∈ retentionVictims backups st keep,
        DeleteOp.recordDel b.id ∈ applyRetentionOps backups st keep) ∧
    (∀ op ∈ applyRetentionOps backups st keep,
        ∃ b ∈ retentionVictims backups st keep, op = DeleteOp.recordDel b.id) :=
  retentionDeleteLoop_spec (retentionVictims backups st keep)

/-- witness for `c1_retention_record_delete_only` at a concrete input. -/
theorem c1_retention_record_delete_only_witness :
    DeleteOp.recordDel exOld.id ∈ applyRetentionOps [exNew, exOld] StorageType.localDisk 1 :=
  (c1_retention_record_delete_only [exNew, exOld] StorageType.localDisk 1).1 exOld (by decide)

/-- C6: retention prunes at most `completed − keep` runs, prunes only runs of
the schedule's storage kind with status `completed` (never `running` or
`failed` ones), and every pruned run is at least as old as every kept one. -/
theorem c6_retention_bounds_completed_oldest (backups : List BackupRec) (st : StorageType) (keep : Nat) :
    (retentionVictims backups st keep).length ≤ (completedFor backups st).length - keep ∧
    (∀ b ∈ retentionVictims backups st keep,
        b.status = Status.completed ∧ b.storage_type = st) ∧
    (∀ b ∈ retentionVictims backups st keep, ∀ c ∈ retentionKept backups st keep,
        b.created_at ≤ c.created_at) := by
  have hperm := List.perm_insertionSort createdDesc (completedFor backups st)
  have hsort := List.sorted_insertionSort createdDesc (completedFor backups st)
  refine ⟨?_, ?_, ?_⟩
  · rw [retentionVictims_eq_drop, List.length_drop, retentionSort, hperm.length_eq]
  · intro b hb
    rw [retentionVictims_eq_drop] at hb
    have hmem : b ∈ completedFor backups st := by
      have : b ∈ retentionSort (completedFor backups st) := List.mem_of_mem_drop hb
      exact hperm.mem_iff.mp this
    have hp := (List.mem_filter.mp hmem).2
    simp only [Bool.and_eq_true, beq_iff_eq] at hp
    exact ⟨hp.2, hp.1⟩
  · intro b hb c hc
    rw [retentionVictims_eq_drop, retentionSort] at hb
    rw [retentionKept, retentionSort] at hc
    exact hsort.rel_of_mem_take_of_mem_drop hc hb

/-- witness for `c6_retention_bounds_completed_oldest` at a concrete input. -/
theorem c6_retention_bounds_completed_oldest_witness :
    exOld.status = Status.completed ∧ exOld.created_at ≤ exNew.created_at := by
  have h := c6_retention_bounds_completed_oldest [exNew, exOld] StorageType.localDisk 1
  exact ⟨(h.2.1 exOld (by decide)).1, h.2.2 exOld (by decide) exNew (by decide)⟩

/-- counterexample to C2: in a run whose download, archive and upload all
succeed, a throw from the cleanup step reaches the `catch` of `createBackup`,
so the run ends `failed` (and the error is re-raised), not `completed`. -/
theorem c2_cleanup_error_fails_run_cex :
    (finalRec (createBackupModel envC2)).map (fun r => r.status) = some Status.failed ∧
    (createBackupModel envC2).threw = some "EACCES" := by
  decide

/-- counterexample to C3: a pipeline failure with a 201-character message is
recorded verbatim by `backupRepo.fail` — the stored `error_message` has 201
characters, so it is not truncated to 200. -/
theorem c3_error_message_not_truncated_cex :
    (finalRec (createBackupModel envC3)).map
        (fun r => (r.status, r.progress, r.error_message)) =
      some (Status.failed, 0, some longMsg) ∧
    200 < longMsg.length := by
  decide

/-- C4: when the volume listing throws after a successful connect, the run
exits through the `catch` of `createBackup` without ever calling
`client.end()` — the SFTP session to the node is opened but never closed. -/
theorem c4_session_leak_on_list_failure :
    Event.sftpConnect ∈ (createBackupModel envC4).events ∧
    Event.sftpEnd ∉ (createBackupModel envC4).events ∧
    (createBackupModel envC4).threw = some "boom" := by
  decide

/-- C9: `sanitizeFilename` strips directories (`x/../y.tar.gz` becomes
`y.tar.gz`), but the base name of `..` is `..` itself: it is returned
unchanged, no traversal warning fires (`safe === filename`), and
`path.resolve(base, '..')` is the parent of the base directory — the resolved
path escapes the configured base directory, contradicting the function's own
`Prevent path traversal` comment. -/
theorem c9_sanitize_dotdot_escapes :
    sanitizeFilename "x/../y.tar.gz" = "y.tar.gz" ∧
    sanitizeFilename ".." = ".." ∧
    sanitizeWarned ".." = false ∧
    jsResolve ["root", "data", "backups"] (sanitizeFilename "..") = ["root", "data"] ∧
    ¬ isUnder ["root", "data", "backups"]
        (jsResolve ["root", "data", "backups"] (sanitizeFilename "..")) := by
  decide

/-- Every event of the wait-for-offline loop is a `getServerState` poll. -/
theorem pollEvents_getState (name : String) (fuel : Nat)
    (ps : List (Except String (Option String))) :
    ∀ e ∈ pollEvents name fuel ps, e = Event.getState name := by
  induction fuel generalizing ps with
  | zero => intro e h; simp [pollEvents] at h
  | succ n ih =>
    cases ps with
    | nil => intro e h; simp [pollEvents] at h
    | cons r rest =>
      intro e h
      cases r with
      | error m =>
        simp [pollEvents] at h
        simp [h]
      | ok st =>
        cases st with
        | none =>
          simp only [pollEvents, List.mem_cons] at h
          rcases h with h | h
          · exact h
          · exact ih rest e h
        | some s =>
          simp only [pollEvents, List.mem_cons] at h
          rcases h with h | h
          · exact h
          · by_cases hs : s == "offline"
            · rw [if_pos hs] at h; simp at h
            · rw [if_neg hs] at h; exact ih rest e h

/-- The stop command appears in the Safe Backup section's events exactly when
`wasRunning` was set. -/
theorem safeStop_stop_iff (v : VolEnv) :
    Event.setState v.name "stop" ∈ (safeStop v).1 ↔ (safeStop v).2.2 = true := by
  cases hu : isUuidFormat v.name with
  | false => simp [safeStop, hu]
  | true =>
    cases hg : v.getState with
    | error m => simp [safeStop, hu, hg]
    | ok st =>
      cases st with
      | none => simp [safeStop, hu, hg]
      | some s =>
        by_cases hs : s = "" ∨ s = "offline"
        · simp [safeStop, hu, hg, hs]
        · cases hstop : v.stop with
          | error m => simp [safeStop, hu, hg, hs, hstop]
          | ok u =>
            simp only [safeStop, hu, if_true, hg, if_neg hs, hstop]
            constructor
            · intro _; trivial
            · intro _
              exact List.mem_cons_of_mem _ (List.mem_cons_self _ _)

/-- C7: workload-state calls happen only for UUID-shaped volume names, and a
stop that was performed is always followed by a start attempt — the start is
the last call of the volume's processing, issued regardless of the download
outcome. -/
theorem c7_safe_backup_protocol (i n : Nat) (v : VolEnv) :
    (∀ e ∈ (processVolume i n v).1, isWorkloadCall e = true → isUuidFormat v.name = true) ∧
    (Event.setState v.name "stop" ∈ (processVolume i n v).1 →
      ∃ pre, (processVolume i n v).1 = pre ++ [Event.setState v.name "start"] ∧
        Event.setState v.name "stop" ∈ pre) := by
  constructor
  · intro e he hw
    cases hu : isUuidFormat v.name with
    | true => rfl
    | false =>
      exfalso
      have hss : safeStop v = ([], [], false) := by simp [safeStop, hu]
      have hev : (processVolume i n v).1 = [Event.download v.name] := by
        simp [processVolume, hss]
      rw [hev] at he
      simp at he
      rw [he] at hw
      simp [isWorkloadCall] at hw
  · intro hstop
    cases hwr : (safeStop v).2.2 with
    | false =>
      exfalso
      have hev : (processVolume i n v).1 = (safeStop v).1 ++ [Event.download v.name] := by
        simp [processVolume, hwr]
      rw [hev] at hstop
      rcases List.mem_append.mp hstop with h | h
      · have := (safeStop_stop_iff v).mp h
        rw [hwr] at this
        exact Bool.false_ne_true this
      · simp at h
    | true =>
      refine ⟨(safeStop v).1 ++ [Event.download v.name], ?_, ?_⟩
      · simp [processVolume, hwr]
      · exact List.mem_append.mpr (Or.inl ((safeStop_stop_iff v).mpr hwr))

/-- A UUID-named volume observed `running`, then stopped, polled offline,
with a failing download. -/
def exUuidVol : VolEnv :=
  { name := "0f81e4a6-96cc-4c95-80e0-5b2b2e7f00aa",
    getState := .ok (some "running"), stop := .ok (),
    polls := [.ok (some "offline")], download := .error "io error",
    start := .ok () }

/-- witness for `c7_safe_backup_protocol`: for a concrete stopped volume whose
download fails, the start attempt is still issued. -/
theorem c7_safe_backup_protocol_witness :
    Event.setState exUuidVol.name "start" ∈ (processVolume 0 1 exUuidVol).1 := by
  obtain ⟨pre, hpre, _⟩ := (c7_safe_backup_protocol 0 1 exUuidVol).2 (by decide)
  rw [hpre]
  exact List.mem_append.mpr (Or.inr (List.mem_singleton.mpr rfl))

/-- `getLast?` of a list ending in an explicit singleton. -/
theorem getLast?_append_last {α : Type} (l₁ l₂ : List α) (a : α) :
    (l₁ ++ (l₂ ++ [a])).getLast? = some a := by
  rw [← List.append_assoc]
  exact List.getLast?_concat _

/-- The truncated webhook error field has at most 200 characters. -/
theorem jsSlice200_length_le (s : String) : (jsSlice200 s).length ≤ 200 := by
  show (s.toList.take 200).length ≤ 200
  rw [List.length_take]
  exact Nat.min_le_left _ _

/-- When the listing does not throw, enumeration succeeds and yields
`enumeratedVols`. -/
theorem enumerate_ok_of_listingOk (env : PipelineEnv) (hl : listingOk env) :
    ∃ ls, enumerate env = Except.ok (enumeratedVols env, ls) := by
  by_cases hs : env.volumeSel = "all-volumes"
  · have h2 := hl hs
    refine ⟨[(LogLevel.info, "Found " ++ toString env.vols.length ++ " volumes")], ?_⟩
    simp [enumerate, enumeratedVols, hs, h2]
  · exact ⟨[], by simp [enumerate, enumeratedVols, beq_iff_eq, hs]⟩

/-- The per-volume progress values stay at or below 75. -/
theorem volProgress_le (n i : Nat) (h : i < n) : volProgress n i ≤ 75 := by
  unfold volProgress
  have h1 : (i + 1) * 60 ≤ n * 60 := Nat.mul_le_mul_right 60 h
  have h2 : (i + 1) * 60 / n ≤ n * 60 / n := Nat.div_le_div_right h1
  have h0 : 0 < n := Nat.lt_of_le_of_lt (Nat.zero_le i) h
  have h3 : n * 60 / n = 60 := by
    rw [Nat.mul_comm]
    exact Nat.mul_div_cancel 60 h0
  omega

/-- Every progress value of the generic write shape differs from 100. -/
theorem progress_shape_ne_100 (n : Nat) (suffix : List Nat)
    (hs : ∀ q ∈ suffix, q ≤ 95) :
    ∀ p ∈ (10 :: 15 :: (List.range n).map (volProgress n)) ++ suffix, p ≠ 100 := by
  intro p hp
  simp only [List.cons_append, List.mem_cons, List.mem_append, List.mem_map] at hp
  rcases hp with rfl | rfl | ⟨i, hi, rfl⟩ | h
  · omega
  · omega
  · have := volProgress_le n i (List.mem_range.mp hi)
    omega
  · have := hs p h
    omega

/-- No progress write inside the `try` block (or before it) is 100: progress
100 is written only by the completing update. -/
theorem tryOutcome_progresses_ne_100 (env : PipelineEnv) :
    ∀ p ∈ (tryOutcome env).progresses, p ≠ 100 := by
  unfold tryOutcome
  split
  · intro p hp; simp at hp
  · split
    · intro p hp; simp at hp; omega
    · dsimp only
      split
      · exact progress_shape_ne_100 _ [75] (by intro q hq; simp at hq; omega)
      · split
        · exact progress_shape_ne_100 _ [75, 85]
            (by intro q hq; simp at hq; rcases hq with rfl | rfl <;> omega)
        · split
          · exact progress_shape_ne_100 _ [75, 85, 95]
              (by intro q hq; simp at hq; rcases hq with rfl | rfl | rfl <;> omega)
          · exact progress_shape_ne_100 _ [75, 85, 95]
              (by intro q hq; simp at hq; rcases hq with rfl | rfl | rfl <;> omega)

/-- In all-success step conditions, `tryOutcome`'s result is decided by the
cleanup step, its events are the connect, the volume loop and the session
close, and every log of the volume loop is among its logs. -/
theorem tryOutcome_steps (env : PipelineEnv) (vs : List VolEnv) (ls : List LogEntry)
    (sz : Nat) (sp : String)
    (hc : env.connect = Except.ok ()) (he : enumerate env = Except.ok (vs, ls))
    (ha : env.archive = Except.ok sz) (hu : env.upload = Except.ok sp) :
    ((tryOutcome env).result = match env.cleanup with
      | .ok _ => Except.ok (sp, sz)
      | .error e => Except.error e) ∧
    (tryOutcome env).events =
      Event.sftpConnect :: (processAll vs.length 0 vs).1 ++ [Event.sftpEnd] ∧
    (∀ lg ∈ (processAll vs.length 0 vs).2, lg ∈ (tryOutcome env).logs) := by
  cases hcl : env.cleanup with
  | ok u =>
    refine ⟨?_, ?_, ?_⟩ <;>
      simp only [tryOutcome, hc, he, ha, hu, hcl] <;>
      intro lg h <;> simp [h]
  | error e =>
    refine ⟨?_, ?_, ?_⟩ <;>
      simp only [tryOutcome, hc, he, ha, hu, hcl] <;>
      intro lg h <;> simp [h]

/-- The record that entered `running` has no storage path and is not
`completed`, in both entry modes. -/
theorem runningRec_base (env : PipelineEnv) (f : String) :
    (runningRec env f).status ≠ Status.completed ∧
      (runningRec env f).storage_path = none ∧
      (runningRec env f).progress = 0 := by
  unfold runningRec apiPendingRec
  by_cases hv : env.viaApi <;> simp [hv]

/-- Sufficient conditions for the record invariant. -/
theorem recInvariant_cases (r : BackupRec)
    (h : (r.status = Status.completed ∧ r.storage_path.isSome = true ∧ r.progress = 100) ∨
      (r.status ≠ Status.completed ∧ r.storage_path = none ∧ r.progress ≠ 100)) :
    recInvariant r := by
  unfold recInvariant
  rcases h with ⟨h1, h2, h3⟩ | ⟨h1, h2, h3⟩
  · rw [h1, h2, h3]
    simp
  · rw [h2]
    simp only [Option.isSome_none]
    constructor
    · constructor
      · intro hc; exact (Bool.false_ne_true hc).elim
      · intro hc; exact absurd hc h1
    · constructor
      · intro hc; exact absurd hc h1
      · intro hc; exact absurd hc h3

/-- Reduction of `createBackupModel` on a successful `try` block: no error is
re-raised, the final record state is the completing update, and the `try`
block's events and logs all appear in the run's. -/
theorem createBackupModel_ok (env : PipelineEnv) (sp : String) (sz : Nat)
    (hn : env.nodeFound = true)
    (hres : (tryOutcome env).result = Except.ok (sp, sz)) :
    (createBackupModel env).threw = none ∧
    finalRec (createBackupModel env) =
      some { runningRec env (genFilename env) with
        storage_path := some sp, size := sz, status := Status.completed,
        progress := 100, completed_at := some env.timestamp } ∧
    (∀ e ∈ (tryOutcome env).events, e ∈ (createBackupModel env).events) ∧
    (∀ lg ∈ (tryOutcome env).logs, lg ∈ (createBackupModel env).logs) := by
  refine ⟨?_, ?_, ?_, ?_⟩
  · simp only [createBackupModel, hn, Bool.true_eq_false, if_false, hres]
  · simp only [createBackupModel, hn, Bool.true_eq_false, if_false, hres, finalRec]
    simp [List.getLast?_cons, List.getLast?_append]
  · intro x hx
    simp only [createBackupModel, hn, Bool.true_eq_false, if_false, hres]
    simp [hx]
  · intro lg hlg
    simp only [createBackupModel, hn, Bool.true_eq_false, if_false, hres]
    simp [hlg]

/-- Reduction of `createBackupModel` on a failing `try` block: the thrown
message is re-raised, the final record state is the `backupRepo.fail` write
(with the untruncated message), the failure webhook carries the truncated
field, and the `try` block's events and logs all appear in the run's. -/
theorem createBackupModel_error (env : PipelineEnv) (e : String)
    (hn : env.nodeFound = true)
    (hres : (tryOutcome env).result = Except.error e) :
    (createBackupModel env).threw = some e ∧
    finalRec (createBackupModel env) =
      some { runningRec env (genFilename env) with
        status := Status.failed, error_message := some e, progress := 0 } ∧
    Event.notifyFailure (jsSlice200 e) ∈ (createBackupModel env).events ∧
    (∀ ev ∈ (tryOutcome env).events, ev ∈ (createBackupModel env).events) ∧
    (∀ lg ∈ (tryOutcome env).logs, lg ∈ (createBackupModel env).logs) := by
  refine ⟨?_, ?_, ?_, ?_, ?_⟩
  · simp only [createBackupModel, hn, Bool.true_eq_false, if_false, hres]
  · simp only [createBackupModel, hn, Bool.true_eq_false, if_false, hres, finalRec]
    simp [List.getLast?_cons, List.getLast?_append]
  · simp only [createBackupModel, hn, Bool.true_eq_false, if_false, hres]
    simp
  · intro ev hev
    simp only [createBackupModel, hn, Bool.true_eq_false, if_false, hres]
    simp [hev]
  · intro lg hlg
    simp only [createBackupModel, hn, Bool.true_eq_false, if_false, hres]
    simp [hlg]

/-- The full list of record states of a run with the node found: the entry
states, the progress writes (all on the `running` record), and one terminal
write — either the completing update or the `backupRepo.fail` write. -/
theorem createBackupModel_states (env : PipelineEnv) (hn : env.nodeFound = true) :
    ∃ last, (createBackupModel env).states =
      ((if env.viaApi then [apiPendingRec env] else []) ++
        [runningRec env (genFilename env)]) ++
      ((5 :: (tryOutcome env).progresses).map
        (fun p => { runningRec env (genFilename env) with progress := p }) ++ [last]) ∧
      ((last.status = Status.completed ∧ last.storage_path.isSome = true ∧
          last.progress = 100) ∨
        (last.status = Status.failed ∧
          last.storage_path = (runningRec env (genFilename env)).storage_path ∧
          last.progress = 0)) := by
  cases hres : (tryOutcome env).result with
  | ok pr =>
    obtain ⟨sp, sz⟩ := pr
    refine ⟨{ runningRec env (genFilename env) with
      storage_path := some sp, size := sz, status := Status.completed,
      progress := 100, completed_at := some env.timestamp }, ?_, Or.inl ⟨rfl, rfl, rfl⟩⟩
    simp only [createBackupModel, hn, Bool.true_eq_false, if_false, hres]
    try rfl
    try simp [List.append_assoc]
  | error e =>
    refine ⟨{ runningRec env (genFilename env) with
      status := Status.failed, error_message := some e, progress := 0 },
      ?_, Or.inr ⟨rfl, rfl, rfl⟩⟩
    simp only [createBackupModel, hn, Bool.true_eq_false, if_false, hres]
    try rfl
    try simp [List.append_assoc]

/-- With the node found, a re-raised message comes from the `try` block. -/
theorem createBackupModel_threw (env : PipelineEnv) (msg : String)
    (hn : env.nodeFound = true)
    (ht : (createBackupModel env).threw = some msg) :
    (tryOutcome env).result = Except.error msg := by
  cases hres : (tryOutcome env).result with
  | ok pr =>
    obtain ⟨sp, sz⟩ := pr
    have h := (createBackupModel_ok env sp sz hn hres).1
    rw [h] at ht
    exact absurd ht (by simp)
  | error e =>
    have h := (createBackupModel_error env e hn hres).1
    rw [h] at ht
    rw [← Option.some_inj.mp ht]

/-- A failing download of a member volume puts the warning line in the
volume loop's logs. -/
theorem processAll_warn (n : Nat) (vs : List VolEnv) (v : VolEnv) (e : String) :
    ∀ i, v ∈ vs → v.download = Except.error e →
      (LogLevel.warn, "Failed to download " ++ v.name ++ ": " ++ e) ∈
        (processAll n i vs).2 := by
  induction vs with
  | nil => intro i hv; simp at hv
  | cons w rest ih =>
    intro i hv hd
    rcases List.mem_cons.mp hv with h | h
    · subst h
      refine List.mem_append.mpr (Or.inl ?_)
      simp [processVolume, hd]
    · exact List.mem_append.mpr (Or.inr (ih (i + 1) h hd))

/-- Every member volume gets a download attempt in the volume loop. -/
theorem processAll_download_events (n : Nat) (vs : List VolEnv) :
    ∀ i, ∀ w ∈ vs, Event.download w.name ∈ (processAll n i vs).1 := by
  induction vs with
  | nil => intro i w hw; simp at hw
  | cons u rest ih =>
    intro i w hw
    rcases List.mem_cons.mp hw with h | h
    · subst h
      refine List.mem_append.mpr (Or.inl ?_)
      simp [processVolume]
    · exact List.mem_append.mpr (Or.inr (ih (i + 1) w h))

/-- C2 (amended): errors of the scratch/temp-file cleanup are not caught
separately — they propagate like any pipeline failure.  When connect,
enumeration, archive and upload all succeed, the run ends `completed` exactly
when cleanup also succeeds; a cleanup error makes the run end `failed` with
that error re-raised. -/
theorem c2_cleanup_error_propagates (env : PipelineEnv)
    (hn : env.nodeFound = true) (hl : listingOk env)
    (hc : env.connect = Except.ok ())
    (ha : ∃ sz, env.archive = Except.ok sz)
    (hu : ∃ sp, env.upload = Except.ok sp) :
    (env.cleanup = Except.ok () →
      (finalRec (createBackupModel env)).map (fun r => r.status) = some Status.completed ∧
      (createBackupModel env).threw = none) ∧
    (∀ e, env.cleanup = Except.error e →
      (finalRec (createBackupModel env)).map (fun r => r.status) = some Status.failed ∧
      (createBackupModel env).threw = some e) := by
  obtain ⟨sz, ha⟩ := ha
  obtain ⟨sp, hu⟩ := hu
  obtain ⟨ls, he⟩ := enumerate_ok_of_listingOk env hl
  have hsteps := (tryOutcome_steps env (enumeratedVols env) ls sz sp hc he ha hu).1
  constructor
  · intro hcl
    rw [hcl] at hsteps
    obtain ⟨h1, h2, _, _⟩ := createBackupModel_ok env sp sz hn hsteps
    rw [h2]
    exact ⟨rfl, h1⟩
  · intro e hcl
    rw [hcl] at hsteps
    obtain ⟨h1, h2, _⟩ := createBackupModel_error env e hn hsteps
    rw [h2]
    exact ⟨rfl, h1⟩

/-- witness for `c2_cleanup_error_propagates` at the concrete run `envC2`. -/
theorem c2_cleanup_error_propagates_witness :
    (finalRec (createBackupModel envC2)).map (fun r => r.status) = some Status.failed ∧
    (createBackupModel envC2).threw = some "EACCES" := by
  have h := c2_cleanup_error_propagates envC2 (by decide)
    (fun hs => absurd hs (by decide)) rfl ⟨10, rfl⟩ ⟨"/data/backups/f.tar.gz", rfl⟩
  exact h.2 "EACCES" rfl

/-- C3 (amended): every failure after the run entered `running` leaves the
record `failed` with progress 0 and the *untruncated* original message in
`error_message`; the ≤200-character truncation applies only to the `Error`
field of the failure webhook. -/
theorem c3_failure_record_full_message (env : PipelineEnv) (msg : String)
    (hn : env.nodeFound = true)
    (ht : (createBackupModel env).threw = some msg) :
    ∃ r, finalRec (createBackupModel env) = some r ∧
      r.status = Status.failed ∧ r.progress = 0 ∧ r.error_message = some msg ∧
      Event.notifyFailure (jsSlice200 msg) ∈ (createBackupModel env).events ∧
      (jsSlice200 msg).length ≤ 200 := by
  have hres := createBackupModel_threw env msg hn ht
  obtain ⟨h1, h2, h3, _, _⟩ := createBackupModel_error env msg hn hres
  exact ⟨_, h2, rfl, rfl, rfl, h3, jsSlice200_length_le msg⟩

/-- witness for `c3_failure_record_full_message` at the concrete run `envC3`
(whose connect fails with a 201-character message). -/
theorem c3_failure_record_full_message_witness :
    ∃ r, finalRec (createBackupModel envC3) = some r ∧
      r.status = Status.failed ∧ r.progress = 0 ∧ r.error_message = some longMsg ∧
      Event.notifyFailure (jsSlice200 longMsg) ∈ (createBackupModel envC3).events ∧
      (jsSlice200 longMsg).length ≤ 200 :=
  c3_failure_record_full_message envC3 longMsg (by decide) (by decide)

/-- C5: every database state the pipeline writes for the run's record —
entry, every progress update, the completing update and the failure update —
satisfies `storage_path` set ⟺ status `completed` ⟺ progress 100. -/
theorem c5_storage_path_completed_progress_invariant (env : PipelineEnv) :
    ∀ r ∈ (createBackupModel env).states, recInvariant r := by
  intro r hr
  by_cases hn : env.nodeFound = false
  · unfold createBackupModel at hr
    rw [if_pos hn] at hr
    by_cases hv : env.viaApi
    · simp [hv] at hr
      subst hr
      exact recInvariant_cases _ (Or.inr (by simp [apiPendingRec]))
    · simp [hv] at hr
  · have hn' : env.nodeFound = true := by
      revert hn; cases env.nodeFound <;> simp
    obtain ⟨last, hstates, hlast⟩ := createBackupModel_states env hn'
    rw [hstates] at hr
    have hbase := runningRec_base env (genFilename env)
    rcases List.mem_append.mp hr with h1 | h2
    · rcases List.mem_append.mp h1 with ha | hb
      · by_cases hv : env.viaApi
        · rw [if_pos hv] at ha
          simp at ha
          subst ha
          exact recInvariant_cases _ (Or.inr (by simp [apiPendingRec]))
        · rw [if_neg hv] at ha
          simp at ha
      · simp at hb
        subst hb
        refine recInvariant_cases _ (Or.inr ⟨hbase.1, hbase.2.1, ?_⟩)
        rw [hbase.2.2]
        omega
    · rcases List.mem_append.mp h2 with hm | hl
      · simp only [List.mem_map, List.mem_cons] at hm
        obtain ⟨p, hp, hr2⟩ := hm
        subst hr2
        refine recInvariant_cases _ (Or.inr ⟨hbase.1, hbase.2.1, ?_⟩)
        show p ≠ 100
        rcases hp with rfl | hp
        · omega
        · exact tryOutcome_progresses_ne_100 env p hp
      · simp at hl
        subst hl
        rcases hlast with ⟨h1, h2, h3⟩ | ⟨h1, h2, h3⟩
        · exact recInvariant_cases _ (Or.inl ⟨h1, h2, h3⟩)
        · refine recInvariant_cases _ (Or.inr ⟨?_, ?_, ?_⟩)
          · rw [h1]; simp
          · rw [h2]; exact hbase.2.1
          · omega

/-- witness for `c5_storage_path_completed_progress_invariant`: the last state
of the concrete successful run `envBase` satisfies the invariant. -/
theorem c5_storage_path_completed_progress_invariant_witness :
    recInvariant ((createBackupModel envBase).states.getLastD (apiPendingRec envBase)) := by
  apply c5_storage_path_completed_progress_invariant envBase
  decide

/-- A volume whose download throws. -/
def volC8 : VolEnv :=
  { name := "vol1", getState := .ok none, stop := .ok (), polls := [],
    download := .error "io", start := .ok () }

/-- `envBase` with the volume's download failing. -/
def envC8 : PipelineEnv := { envBase with singleVol := volC8 }

/-- C8: a download failure of one volume is only logged — a warning line for
that volume is recorded, every volume still gets its download attempt, and
when the rest of the pipeline succeeds the run ends `completed`. -/
theorem c8_volume_failure_recovered (env : PipelineEnv) (v : VolEnv) (emsg : String)
    (hn : env.nodeFound = true) (hl : listingOk env)
    (hc : env.connect = Except.ok ())
    (ha : ∃ sz, env.archive = Except.ok sz)
    (hu : ∃ sp, env.upload = Except.ok sp)
    (hcl : env.cleanup = Except.ok ())
    (hv : v ∈ enumeratedVols env) (hd : v.download = Except.error emsg) :
    (finalRec (createBackupModel env)).map (fun r => r.status) = some Status.completed ∧
    (LogLevel.warn, "Failed to download " ++ v.name ++ ": " ++ emsg) ∈
      (createBackupModel env).logs ∧
    (∀ w ∈ enumeratedVols env, Event.download w.name ∈ (createBackupModel env).events) := by
  obtain ⟨sz, ha⟩ := ha
  obtain ⟨sp, hu⟩ := hu
  obtain ⟨ls, he⟩ := enumerate_ok_of_listingOk env hl
  have hsteps := tryOutcome_steps env (enumeratedVols env) ls sz sp hc he ha hu
  have hres : (tryOutcome env).result = Except.ok (sp, sz) := by
    rw [hsteps.1, hcl]
  obtain ⟨hthrew, hfinal, hevs, hlogs⟩ := createBackupModel_ok env sp sz hn hres
  refine ⟨?_, ?_, ?_⟩
  · rw [hfinal]
    rfl
  · exact hlogs _ (hsteps.2.2 _
      (processAll_warn (enumeratedVols env).length (enumeratedVols env) v emsg 0 hv hd))
  · intro w hw
    apply hevs
    rw [hsteps.2.1]
    exact List.mem_cons_of_mem _ (List.mem_append.mpr
      (Or.inl (processAll_download_events (enumeratedVols env).length (enumeratedVols env) 0 w hw)))

/-- witness for `c8_volume_failure_recovered` at the concrete run `envC8`. -/
theorem c8_volume_failure_recovered_witness :
    (finalRec (createBackupModel envC8)).map (fun r => r.status) = some Status.completed ∧
    (LogLevel.warn, "Failed to download " ++ volC8.name ++ ": " ++ "io") ∈
      (createBackupModel envC8).logs := by
  have h := c8_volume_failure_recovered envC8 { volC8 with name := "vol1" } "io"
    (by decide) (fun hs => absurd hs (by decide)) rfl ⟨10, rfl⟩
    ⟨"/data/backups/f.tar.gz", rfl⟩ rfl (by decide) rfl
  exact ⟨h.1, h.2.1⟩

/-- counterexample to C10: the remote-filesystem backend's `getSize` throws —
rather than returning `0` — when the SFTP host/username settings are absent,
because `getClient()` runs before the `try`/`catch`. -/
theorem c10_sftp_getsize_unconfigured_cex :
    sftpGetSize none none (Except.ok ()) (Except.ok 7) =
      Except.error "SFTP Configuration missing in database" ∧
    sftpGetSize none none (Except.ok ()) (Except.ok 7) ≠ Except.ok 0 := by
  decide

/-- C10 (amended): the local and object-storage backends' `getSize` never
raise — they return 0 for a missing file, missing configuration or a failed
head request; the remote-filesystem backend returns 0 only when `stat` fails
after a successful connection, and raises when its configuration is absent
(or when the connection itself fails). -/
theorem c10_getsize_zero_behaviour (ex : Bool) (sz : Nat)
    (bucket accessKey : Option String) (head : Except String (Option Nat))
    (host username : Option String) (conn : Except String Unit)
    (stat : Except String Nat) :
    (∃ n, localGetSize ex sz = Except.ok n) ∧
    localGetSize false sz = Except.ok 0 ∧
    (∃ n, s3GetSize bucket accessKey head = Except.ok n) ∧
    (bucket.isNone ∨ accessKey.isNone →
      s3GetSize bucket accessKey head = Except.ok 0) ∧
    (∀ e, head = Except.error e → s3GetSize bucket accessKey head = Except.ok 0) ∧
    (host.isSome → username.isSome → conn = Except.ok () →
      ∀ e, stat = Except.error e → sftpGetSize host username conn stat = Except.ok 0) ∧
    (host.isNone ∨ username.isNone →
      sftpGetSize host username conn stat =
        Except.error "SFTP Configuration missing in database") := by
  refine ⟨⟨if ex then sz else 0, rfl⟩, rfl, ?_, ?_, ?_, ?_, ?_⟩
  · unfold s3GetSize
    by_cases hb : bucket.isNone || accessKey.isNone
    · rw [if_pos hb]
      exact ⟨0, rfl⟩
    · rw [if_neg hb]
      cases head with
      | error e => exact ⟨0, rfl⟩
      | ok cl => exact ⟨cl.getD 0, rfl⟩
  · intro h
    unfold s3GetSize
    have hb : (bucket.isNone || accessKey.isNone) = true := by
      rcases h with h | h <;> simp [h]
    rw [if_pos hb]
  · intro e he
    unfold s3GetSize
    by_cases hb : bucket.isNone || accessKey.isNone
    · rw [if_pos hb]
    · rw [if_neg hb, he]
  · intro hh hu hconn e hstat
    obtain ⟨hv, hhv⟩ := Option.isSome_iff_exists.mp hh
    obtain ⟨uv, huv⟩ := Option.isSome_iff_exists.mp hu
    subst hhv
    subst huv
    simp [sftpGetSize, hconn, hstat]
  · intro h
    unfold sftpGetSize
    have hb : (host.isNone || username.isNone) = true := by
      rcases h with h | h <;> simp [h]
    rw [if_pos hb]

/-- witness for `c10_getsize_zero_behaviour` at concrete settings. -/
theorem c10_getsize_zero_behaviour_witness :
    s3GetSize none none (Except.error "boom") = Except.ok 0 ∧
    sftpGetSize (some "h") (some "u") (Except.ok ()) (Except.error "boom") =
      Except.ok 0 := by
  have h := c10_getsize_zero_behaviour true 5 none none (Except.error "boom")
    (some "h") (some "u") (Except.ok ()) (Except.error "boom")
  exact ⟨h.2.2.2.1 (Or.inl rfl), h.2.2.2.2.2.1 rfl rfl rfl "boom" rfl⟩

end PNB
